import Mathlib

/-!
UnrealToml: typed accessors over a parsed TOML document.

A shallow embedding of `Source/UnrealToml/Private/UnrealToml.cpp` (class `FTomlTable`).

Conventions of the embedding.

* `FTomlTable` holds `Impl`, a possibly null pointer to the document; `Impl->` on a null
  pointer and a failed `checkf` are the two abnormal outcomes (`Fault`).
* The accessors are C++ templates over the caller type `T`; here `T` ranges over `CallerKind`
  and the template is a function of `T`.
* `FTomlTable::GetTable` and `FTomlTable::GetTableAtPath` assign from `MoveTemp(*table)`, where
  `table` points into the document of `this`; they are the only members that write to the
  document, so they return the new handle together with the handle they were called on.
* The TOML engine (`toml.hpp`, toml++ v3) is not part of the sources; the engine members the
  accessors call are modelled in the section "Engine" after the engine's documented behaviour.
* `int64` is an `Int` (documents hold values of the signed 64-bit range), `int32` an `Int`
  produced by `castInt32`; `double` and `float` are IEEE-754 bit patterns.
* An `FString` is only ever read through its C string (`*Key`, `*Default`) and built from a
  C string (`UTF8_TO_TCHAR(str.data())`); both directions stop at the first NUL (`cstr`).
* What "the payload converted to `T`" means is fixed apart from the code, by `ConvertedPayload`:
  congruence modulo `2^32` for `int32`, IEEE-754 rounding to nearest (`RoundsToFloat`, stated on
  the magnitudes the bit patterns denote) for `float`, the C string for `FString`.
-/

namespace UnrealToml

/-! ## Machine numbers -/

/-- The `static_cast<int32>` of an `int64`: reduction modulo `2^32` into the signed range. -/
def castInt32 (v : Int) : Int :=
  (v + 2 ^ 31) % 2 ^ 32 - 2 ^ 31

/-- The range of `int32`. -/
def inInt32 (v : Int) : Bool :=
  decide (-(2 : Int) ^ 31 ≤ v) && decide (v ≤ 2 ^ 31 - 1)

/-- The range of `int64`. -/
def inInt64 (v : Int) : Bool :=
  decide (-(2 : Int) ^ 63 ≤ v) && decide (v ≤ 2 ^ 63 - 1)

/-- A `double`, as its IEEE-754 binary64 bit pattern. -/
structure F64 where
  bits : Nat
  deriving DecidableEq, Repr

/-- A `float`, as its IEEE-754 binary32 bit pattern. -/
structure F32 where
  bits : Nat
  deriving DecidableEq, Repr

/-- Division of `m` by `2^s` rounded to nearest, ties to even (`1 ≤ s`). -/
def roundShift (m s : Nat) : Nat :=
  let q := m / 2 ^ s
  let r := m % 2 ^ s
  let half := 2 ^ (s - 1)
  if half < r ∨ (r = half ∧ q % 2 = 1) then q + 1 else q

/-- The `static_cast<float>` of a `double` (round to nearest even; overflow gives an infinity,
a NaN stays a quiet NaN with the leading payload bits). -/
def F64.toF32 (x : F64) : F32 :=
  let sign := x.bits / 2 ^ 63 % 2 * 2 ^ 31
  let e := x.bits / 2 ^ 52 % 2 ^ 11
  let f := x.bits % 2 ^ 52
  if e = 2047 then
    if f = 0 then ⟨sign + 255 * 2 ^ 23⟩ else ⟨sign + 255 * 2 ^ 23 + 2 ^ 22 + f / 2 ^ 29 % 2 ^ 22⟩
  else if e = 0 then ⟨sign⟩
  else
    let m := 2 ^ 52 + f
    let mag := if e < 897 then roundShift m (926 - e) else (e - 897) * 2 ^ 23 + roundShift m 29
    ⟨sign + min mag (255 * 2 ^ 23)⟩

/-- The integer a `double` is equal to, when it is finite, whole and of the `int64` range
(the engine's test `static_cast<double>(static_cast<int64_t>(val)) == val`). -/
def F64.toInt? (x : F64) : Option Int :=
  let neg := x.bits / 2 ^ 63 % 2 = 1
  let e := x.bits / 2 ^ 52 % 2 ^ 11
  let f := x.bits % 2 ^ 52
  let m := 2 ^ 52 + f
  let signed : Nat → Int := fun n => if neg then -(n : Int) else (n : Int)
  if e = 2047 then none
  else if e = 0 then (if f = 0 then some 0 else none)
  else if 1075 ≤ e then
    (if inInt64 (signed (m * 2 ^ (e - 1075))) then some (signed (m * 2 ^ (e - 1075))) else none)
  else if m % 2 ^ (1075 - e) = 0 then some (signed (m / 2 ^ (1075 - e)))
  else none

/-- Position of the leading one bit of `n`, for `0 < n < 2^64`. -/
def leadingBit (n : Nat) : Nat :=
  ((List.range 64).filter (fun i => decide (2 ^ i ≤ n))).length - 1

/-- The `static_cast<float>` of an `int64` of magnitude at most `2^24` (exact there; the engine
converts no other integer to `float`). -/
def F32.ofInt (v : Int) : F32 :=
  let n := v.natAbs
  let sign := if v < 0 then 2 ^ 31 else 0
  if n = 0 then ⟨0⟩
  else ⟨sign + (leadingBit n + 127) * 2 ^ 23 + (n * 2 ^ 23 / 2 ^ leadingBit n - 2 ^ 23)⟩


/-! ## Strings at the boundary -/

/-- The text a C string pointer denotes: the characters before the first NUL. -/
def cstr (s : String) : String :=
  String.mk (s.data.takeWhile (fun c => c != Char.ofNat 0))

/-- The macro `TCHAR_TO_UTF8(*Str)`: the UTF-8 C string of an `FString`. -/
def TCHAR_TO_UTF8 (Str : String) : String :=
  cstr Str

/-- The macro `UTF8_TO_TCHAR(Ptr)`: the `FString` built from a UTF-8 C string. -/
def UTF8_TO_TCHAR (Ptr : String) : String :=
  cstr Ptr

/-! ## Document model -/

/-- The engine's `toml::node_type`. -/
inductive NodeType
  | none
  | table
  | array
  | string
  | integer
  | floatingPoint
  | boolean
  | date
  | time
  | dateTime
  deriving DecidableEq, Repr

/-- A node of the parsed document (`toml::node`): a table, an array or a value. A table is
its entries, key with child; the date and time values keep their source text. -/
inductive Node
  | table (entries : List (String × Node))
  | array (elems : List Node)
  | string (s : String)
  | integer (v : Int)
  | floatingPoint (x : F64)
  | boolean (b : Bool)
  | date (text : String)
  | time (text : String)
  | dateTime (text : String)
  deriving Repr

/-- The entries of a `toml::table`. -/
abbrev Table := List (String × Node)

/-- A `toml::node_view`: a possibly null pointer to a node. -/
abbrev NodeView := Option Node

/-- The engine's `node::type()`. -/
def Node.type : Node → NodeType
  | .table _ => .table
  | .array _ => .array
  | .string _ => .string
  | .integer _ => .integer
  | .floatingPoint _ => .floatingPoint
  | .boolean _ => .boolean
  | .date _ => .date
  | .time _ => .time
  | .dateTime _ => .dateTime

/-! ## Caller types -/

/-- The types `T` admitted by the concept `Toml::CSupportedType`. -/
inductive CallerKind
  | bool
  | int32
  | int64
  | float
  | double
  | FString
  deriving DecidableEq, Repr

/-- The values of the caller type `T`. -/
@[reducible]
def CallerKind.Val : CallerKind → Type
  | .bool => Bool
  | .int32 => Int
  | .int64 => Int
  | .float => F32
  | .double => F64
  | .FString => String

/-- The values of `Toml::UETypeToNativeType<T>::Type`: `int32` reads as `int64`, `float` as
`double`, `FString` as `std::string`, the others as themselves. -/
@[reducible]
def CallerKind.Native : CallerKind → Type
  | .bool => Bool
  | .int32 => Int
  | .int64 => Int
  | .float => F64
  | .double => F64
  | .FString => String

/-- The node type of `Toml::UETypeToNativeType<T>::Type`. -/
def Toml.UETypeToNativeType : CallerKind → NodeType
  | .bool => .boolean
  | .int32 => .integer
  | .int64 => .integer
  | .float => .floatingPoint
  | .double => .floatingPoint
  | .FString => .string

/-- The conversion of a native payload to `T`: `static_cast<T>` for the value types,
`UTF8_TO_TCHAR(str.data())` for `FString`. -/
def Toml.toCaller : (T : CallerKind) → T.Native → T.Val
  | .bool, b => b
  | .int32, v => castInt32 v
  | .int64, v => v
  | .float, x => F64.toF32 x
  | .double, x => x
  | .FString, s => UTF8_TO_TCHAR s

/-! ## Engine

The members of toml++ that the accessors call, each after the engine's reference
documentation. Three of its rules decide properties below:

* `node::value<T>()` is the permissive retrieval ("some value types are allowed to convert to
  others"; an integer that the destination type cannot represent gives no value), and
  `value_or` has the same rules for a default that is not of one of the engine's value types;
* `array::is_homogeneous` "always returns false for empty arrays";
* `table::operator=(table&&)` moves the entries out of its argument. -/

/-- The engine's `table::get(key)`: the child under `key`, or null. -/
def Table.get : Table → String → NodeView
  | [], _ => none
  | (k, n) :: rest, key => if k = key then some n else Table.get rest key

/-- The engine's `table::contains(key)`. -/
def Table.contains (t : Table) (key : String) : Bool :=
  (Table.get t key).isSome

/-- The engine's `table::operator[](key)`: a view of the child, null when the key is absent. -/
def Table.index (t : Table) (key : String) : NodeView :=
  Table.get t key

/-- The engine's `node_view::is<N>()`, `N` given by its node type; false on a null view. -/
def NodeView.is (node : NodeView) (N : NodeType) : Bool :=
  match node with
  | none => false
  | some n => decide (n.type = N)

/-- The engine's `node_view::as<N>()` followed by `get()`, for `N` the native type of `T`:
the payload when the node is a value of that type, else null. -/
def NodeView.as : (T : CallerKind) → NodeView → Option T.Native
  | .bool, some (.boolean b) => some b
  | .int32, some (.integer v) => some v
  | .int64, some (.integer v) => some v
  | .float, some (.floatingPoint x) => some x
  | .double, some (.floatingPoint x) => some x
  | .FString, some (.string s) => some s
  | _, _ => none

/-- The engine's `node_view::as_table()`. -/
def NodeView.as_table : NodeView → Option Table
  | some (.table entries) => some entries
  | _ => none

/-- The engine's `node_view::as_array()`. -/
def NodeView.as_array : NodeView → Option (List Node)
  | some (.array elems) => some elems
  | _ => none

/-- The engine's `node_view::is_array()`. -/
def NodeView.is_array (node : NodeView) : Bool :=
  (NodeView.as_array node).isSome

/-- The engine's `node::is_homogeneous(ntype)` for a given type: an array or a table is
homogeneous when it is not empty (the engine returns false at once on `elems_.empty()`) and
every child has the type; a value when it has the type. -/
def Node.is_homogeneous (n : Node) (ntype : NodeType) : Bool :=
  match n with
  | .array elems => !elems.isEmpty && elems.all (fun e => decide (e.type = ntype))
  | .table entries => !entries.isEmpty && entries.all (fun e => decide (e.2.type = ntype))
  | v => decide (v.type = ntype)

/-- The engine's `node_view::is_homogeneous<N>()`; false on a null view. -/
def NodeView.is_homogeneous (node : NodeView) (N : NodeType) : Bool :=
  match node with
  | none => false
  | some n => n.is_homogeneous N

/-- The engine's `impl::node_integer_cast<int32>`: the value when it is of the `int32` range. -/
def node_integer_cast (val : Int) : Option Int :=
  if inInt32 val then some val else none

/-- The engine's `node::value<int32>()`: an integer of the `int32` range, a whole float of
that range, or a boolean as 0 or 1; no value otherwise. -/
def Node.value_int32 : Node → Option Int
  | .integer v => node_integer_cast v
  | .floatingPoint x =>
    match x.toInt? with
    | some v => node_integer_cast v
    | none => none
  | .boolean b => some (if b then 1 else 0)
  | _ => none

/-- The engine's `node::value<float>()`: a float narrowed, or an integer of magnitude at most
`2^24` (the whole numbers a `float` holds exactly) converted; no value otherwise. -/
def Node.value_float : Node → Option F32
  | .floatingPoint x => some x.toF32
  | .integer v => if v < -(2 : Int) ^ 24 ∨ (2 : Int) ^ 24 < v then none else some (F32.ofInt v)
  | _ => none

/-- The engine's `node_view::value_or(default_value)` at the type of the default. For the
engine's own value types (`bool`, `int64`, `double`) the node must have exactly that type; for
`int32` and `float` the retrieval is `node::value<T>()`; for a C string the node must be a
string, and the result is a C string (the node's characters or the default). -/
def NodeView.value_or : (T : CallerKind) → NodeView → T.Val → T.Val
  | .bool, some (.boolean b), _ => b
  | .int64, some (.integer v), _ => v
  | .double, some (.floatingPoint x), _ => x
  | .int32, some n, d => (n.value_int32).getD d
  | .float, some n, d => (n.value_float).getD d
  | .FString, some (.string s), _ => s
  | _, _, d => d

/-- A component of a path: a table key or an array index. -/
inductive PathComponent
  | key (k : String)
  | index (i : Nat)
  deriving DecidableEq, Repr

/-- In a path, a space or a tab. -/
def isBlank (c : Char) : Bool :=
  c = ' ' || c = '\t'

/-- In a path, one of the characters that end a key: `.`, `[` and `]`. -/
def isPathBreak (c : Char) : Bool :=
  c = '.' || c = '[' || c = ']'

/-- After `[`: blanks, then the first digit of the index; the input from that digit on. -/
def indexStart : List Char → Option (List Char)
  | [] => none
  | c :: cs => if c.isDigit then some (c :: cs) else if isBlank c then indexStart cs else none

/-- After the digits of an index: blanks, then `]` (consumed), or `.`, `[` or the end of the
path (left in place); the input after the indexer. -/
def indexClose : List Char → Option (List Char)
  | [] => some []
  | c :: cs =>
    if c = ']' then some cs
    else if c = '.' || c = '[' then some (c :: cs)
    else if isBlank c then indexClose cs
    else none

/-- The digits of an index as a `size_t`; none when it does not fit. -/
def parseIndex (digits : List Char) : Option Nat :=
  let n := digits.foldl (fun acc c => acc * 10 + (c.toNat - '0'.toNat)) 0
  if n < 2 ^ 64 then some n else none

/-- The loop of the engine's `impl::parse_path_into`, with the flags `prev_was_array_indexer`
and `prev_was_dot`; each round consumes at least one character, `fuel` bounds the rounds. -/
def parsePathLoop : Nat → List Char → Bool → Bool → Option (List PathComponent)
  | 0, _, _, _ => none
  | _ + 1, [], _, prevDot => if prevDot then some [.key ""] else some []
  | fuel + 1, c :: cs, prevIdx, prevDot =>
    if c = '[' then
      match indexStart cs with
      | none => none
      | some ds =>
        match indexClose (ds.dropWhile Char.isDigit), parseIndex (ds.takeWhile Char.isDigit) with
        | some rest, some i =>
          (parsePathLoop fuel rest true false).map (fun r => PathComponent.index i :: r)
        | _, _ => none
    else if c = '.' then
      (parsePathLoop fuel cs false true).map
        (fun r => if prevDot then PathComponent.key "" :: r else r)
    else if c = ']' then none
    else
      let sub := c :: cs.takeWhile (fun x => !isPathBreak x)
      let rest := cs.dropWhile (fun x => !isPathBreak x)
      if prevIdx then
        if sub.all isBlank then parsePathLoop fuel rest false false else none
      else
        (parsePathLoop fuel rest false false).map (fun r => PathComponent.key (String.mk sub) :: r)

/-- The engine's `impl::parse_path_into`: the components of a path, none when it is malformed.
The empty path is the single key `""`, as is an empty segment. -/
def parsePath (path : String) : Option (List PathComponent) :=
  parsePathLoop (path.data.length + 1) path.data false true

/-- The descent of the engine's `at_path`: a key steps into a table, an index into an array. -/
def walk : Node → List PathComponent → NodeView
  | n, [] => some n
  | .table entries, .key k :: rest =>
    match Table.get entries k with
    | some child => walk child rest
    | none => none
  | .array elems, .index i :: rest =>
    match elems.get? i with
    | some child => walk child rest
    | none => none
  | _, _ => none

/-- The engine's `table::at_path(path)`: null on an empty table, on a malformed path and when
the descent fails. -/
def Table.at_path (t : Table) (path : String) : NodeView :=
  if t.isEmpty then none
  else
    match parsePath path with
    | none => none
    | some components => walk (.table t) components

/-- Replace the child under the first entry with the key. -/
def Table.modify (f : Node → Node) : Table → String → Table
  | [], _ => []
  | (k, n) :: rest, key => if k = key then (k, f n) :: rest else (k, n) :: Table.modify f rest key

/-- Replace the element at an index. -/
def modifyNth (f : Node → Node) : List Node → Nat → List Node
  | [], _ => []
  | n :: rest, 0 => f n :: rest
  | n :: rest, i + 1 => n :: modifyNth f rest i

/-- Replace the node that `walk` reaches. -/
def Node.modifyAt (f : Node → Node) : Node → List PathComponent → Node
  | n, [] => f n
  | .table entries, .key k :: rest =>
    .table (Table.modify (fun child => Node.modifyAt f child rest) entries k)
  | .array elems, .index i :: rest =>
    .array (modifyNth (fun child => Node.modifyAt f child rest) elems i)
  | n, _ => n

/-- The state of a table after the engine's `table::operator=(table&&)` took its entries
(`map_ = std::move(rhs.map_)`): the node is still a table, with no entry. -/
def Node.movedFrom : Node → Node
  | .table _ => .table []
  | n => n

/-! ## The handle and its accessors -/

/-- The two ways an accessor ends abnormally: a `checkf` whose condition is false, and the
use of a null pointer. -/
inductive Fault
  | checkFailed
  | nullDeref
  deriving DecidableEq, Repr

deriving instance DecidableEq for Except

/-- The macro `checkf(Cond, ...)`. -/
def checkf (Cond : Bool) : Except Fault Unit :=
  if Cond then .ok () else .error .checkFailed

/-- The struct `FTomlFileImpl`. -/
structure FTomlFileImpl where
  tbl : Table

/-- The class `FTomlTable`: its one member `Impl`, null in an invalid handle. -/
structure FTomlTable where
  Impl : Option FTomlFileImpl

/-- The expression `Impl->`. -/
def FTomlTable.deref (self : FTomlTable) : Except Fault FTomlFileImpl :=
  match self.Impl with
  | some impl => .ok impl
  | none => .error .nullDeref

/-- The member `FTomlTable::Init`, on a fresh handle. -/
def FTomlTable.Init : FTomlTable :=
  ⟨some ⟨[]⟩⟩

/-- The member `FTomlTable::IsValid`. -/
def FTomlTable.IsValid (self : FTomlTable) : Bool :=
  self.Impl.isSome

/-- The member `FTomlTable::IsEmpty`. -/
def FTomlTable.IsEmpty (self : FTomlTable) : Bool :=
  match self.Impl with
  | some impl => impl.tbl.isEmpty
  | none => false

/-- The copy constructor `FTomlTable(const FTomlTable& Other)`. -/
def FTomlTable.copy (Other : FTomlTable) : FTomlTable :=
  match Other.Impl with
  | some impl => ⟨some ⟨impl.tbl⟩⟩
  | none => ⟨some ⟨[]⟩⟩

/-- The copy assignment `operator=(const FTomlTable& Other)` for `this != &Other`; the target
afterwards. -/
def FTomlTable.assign (_self Other : FTomlTable) : FTomlTable :=
  match Other.Impl with
  | some impl => ⟨some ⟨impl.tbl⟩⟩
  | none => ⟨some ⟨[]⟩⟩

/-- The right-hand side of a copy assignment as the test `this != &Other` sees it: the object
assigned to, or another object. -/
inductive AssignSource
  | this
  | other (Other : FTomlTable)

/-- The copy assignment `operator=` with its test `this != &Other`: assigning an object to
itself leaves it as it is. -/
def FTomlTable.operatorAssign (self : FTomlTable) : AssignSource → FTomlTable
  | .this => self
  | .other Other => FTomlTable.assign self Other

/-- The member `FTomlTable::HasKey`. -/
def FTomlTable.HasKey (self : FTomlTable) (Key : String) : Except Fault Bool := do
  let impl ← self.deref
  pure (impl.tbl.contains (TCHAR_TO_UTF8 Key))

/-- The checked `FTomlTable::Get<T>(Key)`. -/
def FTomlTable.Get (T : CallerKind) (self : FTomlTable) (Key : String) : Except Fault T.Val := do
  checkf (← self.HasKey Key)
  let impl ← self.deref
  let node := impl.tbl.index (TCHAR_TO_UTF8 Key)
  checkf (node.is (Toml.UETypeToNativeType T))
  match node.as T with
  | some payload => pure (Toml.toCaller T payload)
  | none => throw .nullDeref

/-- The tail shared by the defaulted getters: `static_cast<T>(node.value_or(Default))` for a
value type, `UTF8_TO_TCHAR(node.value_or(TCHAR_TO_UTF8(*Default)))` for `FString`. -/
def Toml.valueOrDefault : (T : CallerKind) → NodeView → T.Val → T.Val
  | .FString, node, Default =>
    UTF8_TO_TCHAR (NodeView.value_or .FString node (TCHAR_TO_UTF8 Default))
  | .bool, node, Default => NodeView.value_or .bool node Default
  | .int32, node, Default => NodeView.value_or .int32 node Default
  | .int64, node, Default => NodeView.value_or .int64 node Default
  | .float, node, Default => NodeView.value_or .float node Default
  | .double, node, Default => NodeView.value_or .double node Default

/-- The defaulted `FTomlTable::Get<T>(Key, Default)`. -/
def FTomlTable.GetOr (T : CallerKind) (self : FTomlTable) (Key : String) (Default : T.Val) :
    Except Fault T.Val := do
  let impl ← self.deref
  let node := impl.tbl.index (TCHAR_TO_UTF8 Key)
  if !node.is (Toml.UETypeToNativeType T) then
    pure Default
  else
    pure (Toml.valueOrDefault T node Default)

/-- The member `FTomlTable::GetHomoArray<T>(Key)`. The visitor given to `for_each` takes a
`toml::value` of the native type; the engine calls it on the elements of that type, in order. -/
def FTomlTable.GetHomoArray (T : CallerKind) (self : FTomlTable) (Key : String) :
    Except Fault (List T.Val) := do
  checkf (← self.HasKey Key)
  let impl ← self.deref
  let node := impl.tbl.index (TCHAR_TO_UTF8 Key)
  checkf node.is_array
  checkf (node.is_homogeneous (Toml.UETypeToNativeType T))
  match node.as_array with
  | some arr =>
    pure (arr.filterMap (fun item => (NodeView.as T (some item)).map (Toml.toCaller T)))
  | none => throw .nullDeref

/-- The checked `FTomlTable::AtPath<T>(Path)`. -/
def FTomlTable.AtPath (T : CallerKind) (self : FTomlTable) (Path : String) :
    Except Fault T.Val := do
  let impl ← self.deref
  let node := impl.tbl.at_path (TCHAR_TO_UTF8 Path)
  checkf (node.is (Toml.UETypeToNativeType T))
  match node.as T with
  | some payload => pure (Toml.toCaller T payload)
  | none => throw .nullDeref

/-- The defaulted `FTomlTable::AtPath<T>(Path, Default)`. -/
def FTomlTable.AtPathOr (T : CallerKind) (self : FTomlTable) (Path : String) (Default : T.Val) :
    Except Fault T.Val := do
  let impl ← self.deref
  let node := impl.tbl.at_path (TCHAR_TO_UTF8 Path)
  pure (Toml.valueOrDefault T node Default)

/-- The member `FTomlTable::GetKeys`. -/
def FTomlTable.GetKeys (self : FTomlTable) : List String :=
  match self.Impl with
  | none => []
  | some impl => impl.tbl.map (fun entry => UTF8_TO_TCHAR entry.1)

/-- The member `FTomlTable::GetTable`: the returned handle, and the handle it was called on
after `Result.Impl->tbl = MoveTemp(*table)` took the entries of the child. -/
def FTomlTable.GetTable (self : FTomlTable) (Key : String) :
    Except Fault (FTomlTable × FTomlTable) := do
  match self.Impl with
  | none => throw .checkFailed
  | some impl =>
    checkf (impl.tbl.contains (TCHAR_TO_UTF8 Key))
    match (impl.tbl.index (TCHAR_TO_UTF8 Key)).as_table with
    | none => throw .checkFailed
    | some table =>
      pure (⟨some ⟨table⟩⟩, ⟨some ⟨Table.modify Node.movedFrom impl.tbl (TCHAR_TO_UTF8 Key)⟩⟩)

/-- The document after the table that `at_path` reached gave up its entries. -/
def Table.moveOutAt (t : Table) (path : String) : Table :=
  match parsePath path with
  | none => t
  | some components =>
    match Node.modifyAt Node.movedFrom (.table t) components with
    | .table entries => entries
    | _ => t

/-- The member `FTomlTable::GetTableAtPath`: the returned handle, and the handle it was called
on after `Result.Impl->tbl = MoveTemp(*table)` took the entries of the table at the path. -/
def FTomlTable.GetTableAtPath (self : FTomlTable) (Path : String) :
    Except Fault (FTomlTable × FTomlTable) := do
  match self.Impl with
  | none => throw .checkFailed
  | some impl =>
    match (impl.tbl.at_path (TCHAR_TO_UTF8 Path)).as_table with
    | none => throw .checkFailed
    | some table =>
      pure (⟨some ⟨table⟩⟩, ⟨some ⟨Table.moveOutAt impl.tbl (TCHAR_TO_UTF8 Path)⟩⟩)

/-! ## Loading -/

/-- The engine's `toml::parse_error`, as `Toml::ParseTomlTable` reads it: the description, the
source path when there is one, and the lines and columns of the source region. -/
structure ParseError where
  description : String
  path : Option String
  beginLine : Nat
  endLine : Nat
  beginColumn : Nat
  endColumn : Nat
  deriving Repr

/-- The function `Toml::ParseTomlTable`, over the engine's `toml::parse`: the table on success
(`OutTable`), the formatted line on failure (`OutError`). -/
def Toml.ParseTomlTable (parse : String → Except ParseError Table) (Content : String) :
    Except String Table :=
  match parse (TCHAR_TO_UTF8 Content) with
  | .ok table => .ok table
  | .error e =>
    .error (UTF8_TO_TCHAR e.description ++ " "
      ++ (match e.path with
        | some path => UTF8_TO_TCHAR path
        | none => "")
      ++ "(" ++ toString e.beginLine ++ ":" ++ toString e.endLine ++ ", "
      ++ toString e.beginColumn ++ ":" ++ toString e.endColumn ++ ")")

/-- The factory `FTomlTable::LoadString`, over the engine's `toml::parse`: the handle, and the
lines it logs. -/
def FTomlTable.LoadString (parse : String → Except ParseError Table) (Content : String) :
    FTomlTable × List String :=
  match Toml.ParseTomlTable parse Content with
  | .ok table => (⟨some ⟨table⟩⟩, [])
  | .error Error => (⟨none⟩, ["Failed to parse TOML string: " ++ Error])

/-! ## Vocabulary of the properties -/

/-- The engine's `node_view::type()`: the node type, `none` for a null view. -/
def NodeView.type : NodeView → NodeType
  | some n => n.type
  | none => .none

/-- The child that a key names in the root table of a handle; null when there is none. -/
def FTomlTable.child (self : FTomlTable) (Key : String) : NodeView :=
  match self.Impl with
  | some impl => Table.get impl.tbl (TCHAR_TO_UTF8 Key)
  | none => none

/-! ### IEEE-754 reading of the bit patterns -/

/-- The document `[table]`, `key = "value"`. -/
def docTable : FTomlTable :=
  ⟨some ⟨[("table", .table [("key", .string "value")])]⟩⟩

/-- The document `docTable` with the entries of `table` taken away. -/
def docTableTaken : FTomlTable :=
  ⟨some ⟨[("table", .table [])]⟩⟩

/-- The document `flag = true`. -/
def docFlag : FTomlTable :=
  ⟨some ⟨[("flag", .boolean true)]⟩⟩

/-- The document `big = 4294967296`. -/
def docBig : FTomlTable :=
  ⟨some ⟨[("big", .integer 4294967296)]⟩⟩

/-- The document `e = []`. -/
def docEmptyArray : FTomlTable :=
  ⟨some ⟨[("e", .array [])]⟩⟩

/-- The document `[a.b]`, `c = true`. -/
def docNested : FTomlTable :=
  ⟨some ⟨[("a", .table [("b", .table [("c", .boolean true)])])]⟩⟩

/-- The document `n = 42`, `numbers = [1, 2, 3]`. -/
def docNumbers : FTomlTable :=
  ⟨some ⟨[("n", .integer 42), ("numbers", .array [.integer 1, .integer 2, .integer 3])]⟩⟩

/-- A stand-in for the engine's `toml::parse` that knows one document: it accepts the text
`flag = true` and rejects every other text. -/
def parseSample (text : String) : Except ParseError Table :=
  if text = "flag = true" then .ok [("flag", .boolean true)]
  else .error ⟨"Error while parsing key-value pair", none, 1, 1, 1, 1⟩

/-- The chained form of a three-key path: `GetTable(a).GetTable(b).Get<T>(c, Default)`. -/
def chainedGetOr (T : CallerKind) (self : FTomlTable) (a b c : String) (Default : T.Val) :
    Except Fault T.Val := do
  let ta ← self.GetTable a
  let tb ← ta.1.GetTable b
  tb.1.GetOr T c Default

/-! ## Basic facts -/

theorem ok_bind {α β : Type} (a : α) (f : α → Except Fault β) :
    (Except.ok a >>= f) = f a := rfl

theorem error_bind {α β : Type} (e : Fault) (f : α → Except Fault β) :
    ((Except.error e : Except Fault α) >>= f) = Except.error e := rfl

theorem pure_eq_ok {α : Type} (a : α) : (pure a : Except Fault α) = Except.ok a := rfl

theorem throw_eq_error {α : Type} (e : Fault) : (throw e : Except Fault α) = Except.error e := rfl

theorem checkf_true : checkf true = Except.ok () := rfl

theorem checkf_false : checkf false = Except.error Fault.checkFailed := rfl

theorem UETypeToNativeType_ne_none (T : CallerKind) : Toml.UETypeToNativeType T ≠ NodeType.none := by
  cases T <;> simp [Toml.UETypeToNativeType]

theorem NodeView.is_eq_decide (node : NodeView) (N : NodeType) (hN : N ≠ NodeType.none) :
    node.is N = decide (node.type = N) := by
  cases node with
  | none => simp [NodeView.is, NodeView.type, Ne.symm hN]
  | some n => simp [NodeView.is, NodeView.type]

theorem HasKey_valid (impl : FTomlFileImpl) (Key : String) :
    FTomlTable.HasKey ⟨some impl⟩ Key = .ok ((FTomlTable.child ⟨some impl⟩ Key).isSome) := by
  rfl

theorem GetOr_valid (T : CallerKind) (impl : FTomlFileImpl) (Key : String) (Default : T.Val) :
    FTomlTable.GetOr T ⟨some impl⟩ Key Default =
      .ok (if (FTomlTable.child ⟨some impl⟩ Key).type = Toml.UETypeToNativeType T
        then Toml.valueOrDefault T (FTomlTable.child ⟨some impl⟩ Key) Default else Default) := by
  simp only [FTomlTable.GetOr, FTomlTable.deref, FTomlTable.child, Table.index,
    NodeView.is_eq_decide _ _ (UETypeToNativeType_ne_none T)]
  by_cases h : (Table.get impl.tbl (TCHAR_TO_UTF8 Key)).type = Toml.UETypeToNativeType T
  · simp [h, ok_bind, pure_eq_ok]
  · simp [h, ok_bind, pure_eq_ok]

theorem Get_valid (T : CallerKind) (impl : FTomlFileImpl) (Key : String) :
    FTomlTable.Get T ⟨some impl⟩ Key =
      if (FTomlTable.child ⟨some impl⟩ Key).type = Toml.UETypeToNativeType T then
        match NodeView.as T (FTomlTable.child ⟨some impl⟩ Key) with
        | some payload => .ok (Toml.toCaller T payload)
        | none => .error .nullDeref
      else .error .checkFailed := by
  simp only [FTomlTable.Get, FTomlTable.HasKey, FTomlTable.deref, FTomlTable.child, Table.index,
    Table.contains, NodeView.is_eq_decide _ _ (UETypeToNativeType_ne_none T), ok_bind, pure_eq_ok,
    throw_eq_error]
  cases hc : Table.get impl.tbl (TCHAR_TO_UTF8 Key) with
  | none =>
    have hne : ¬ (NodeType.none = Toml.UETypeToNativeType T) :=
      fun h => UETypeToNativeType_ne_none T h.symm
    simp [NodeView.type, hne, checkf_false, error_bind]
  | some n =>
    by_cases h : n.type = Toml.UETypeToNativeType T
    · simp only [Option.isSome_some, checkf_true, ok_bind, NodeView.type, h, decide_True, if_true]
    · simp [NodeView.type, h, checkf_true, checkf_false, ok_bind, error_bind]

theorem valid_eq (self : FTomlTable) (hv : self.IsValid = true) :
    ∃ impl, self = ⟨some impl⟩ := by
  cases self with
  | mk Impl =>
    cases Impl with
    | none => simp [FTomlTable.IsValid] at hv
    | some impl => exact ⟨impl, rfl⟩

theorem Get_eq_GetOr_of_match (T : CallerKind) (impl : FTomlFileImpl) (Key : String)
    (Default : T.Val)
    (ht : (FTomlTable.child ⟨some impl⟩ Key).type = Toml.UETypeToNativeType T)
    (hr : ∀ v, T = CallerKind.int32 → FTomlTable.child ⟨some impl⟩ Key = some (.integer v) →
      inInt32 v = true) :
    FTomlTable.Get T ⟨some impl⟩ Key = FTomlTable.GetOr T ⟨some impl⟩ Key Default := by
  rw [Get_valid, GetOr_valid]
  simp only [ht, if_true]
  cases hc : FTomlTable.child ⟨some impl⟩ Key with
  | none => rw [hc] at ht; exact absurd ht.symm (UETypeToNativeType_ne_none T)
  | some n =>
    rw [hc] at ht
    cases T <;> cases n <;>
      simp_all [NodeView.type, Node.type, Toml.UETypeToNativeType, NodeView.as, Toml.toCaller,
        Toml.valueOrDefault, NodeView.value_or, Node.value_int32, Node.value_float,
        node_integer_cast]
    · rename_i v
      simp only [inInt32, Bool.and_eq_true, decide_eq_true_eq] at hr
      show ((v + 2 ^ 31) % 2 ^ 32 - 2 ^ 31 : Int) = v
      omega

/-- In the model of `value_or` above (exact for a default of `bool`, `int64` or `double`), the
defaulted `AtPath` returns the default on a node of another type for these three `T`. -/
theorem AtPathOr_strict_on_engine_types (T : CallerKind) (impl : FTomlFileImpl) (Path : String)
    (Default : T.Val) (hT : T = .bool ∨ T = .int64 ∨ T = .double)
    (hm : (Table.at_path impl.tbl (TCHAR_TO_UTF8 Path)).type ≠ Toml.UETypeToNativeType T) :
    FTomlTable.AtPathOr T ⟨some impl⟩ Path Default = .ok Default := by
  simp only [FTomlTable.AtPathOr, FTomlTable.deref, ok_bind, pure_eq_ok]
  cases hn : Table.at_path impl.tbl (TCHAR_TO_UTF8 Path) with
  | none => rcases hT with h | h | h <;> subst h <;> rfl
  | some n =>
    rw [hn] at hm
    rcases hT with h | h | h <;> subst h <;> cases n <;>
      simp_all [NodeView.type, Node.type, Toml.UETypeToNativeType, Toml.valueOrDefault,
        NodeView.value_or]

/-! ### The narrowing of a `double` is the IEEE-754 rounding -/

/-- C1: `GetTable` and `GetTableAtPath` hand out the child table and empty it in the document
they were called on. On the document `[table]`, `key = "value"` both return a handle on
`key = "value"` and leave `table` with no entry: `AtPath("table.key", "none")` gives `"value"`
before the call and `"none"` after it, and a second `GetTable("table")` returns an empty
table. -/
theorem GetTable_takes_entries_of_child :
    docTable.GetTable "table" = .ok (⟨some ⟨[("key", .string "value")]⟩⟩, docTableTaken)
    ∧ docTable.GetTableAtPath "table" = .ok (⟨some ⟨[("key", .string "value")]⟩⟩, docTableTaken)
    ∧ docTable.AtPathOr .FString "table.key" "none" = .ok "value"
    ∧ docTableTaken.AtPathOr .FString "table.key" "none" = .ok "none"
    ∧ docTableTaken.GetTable "table" = .ok (⟨some ⟨[]⟩⟩, docTableTaken) :=
  ⟨rfl, rfl, by decide, by decide, rfl⟩

/-- C2: on a valid handle the defaulted `Get<T>(Key, Default)` always returns a value, and it
returns `Default` when the key is absent from the root table or the child is not of the node
type that `T` maps to. -/
theorem GetOr_default_on_absent_or_mismatch (T : CallerKind) (self : FTomlTable) (Key : String)
    (Default : T.Val) (hv : self.IsValid = true) :
    (∃ v, self.GetOr T Key Default = .ok v) ∧
    ((self.HasKey Key = .ok false ∨ (self.child Key).type ≠ Toml.UETypeToNativeType T) →
      self.GetOr T Key Default = .ok Default) := by
  obtain ⟨impl, rfl⟩ := valid_eq self hv
  rw [GetOr_valid]
  refine ⟨⟨_, rfl⟩, ?_⟩
  intro h
  have hne : (FTomlTable.child ⟨some impl⟩ Key).type ≠ Toml.UETypeToNativeType T := by
    rcases h with h | h
    · rw [HasKey_valid] at h
      have hnone : FTomlTable.child ⟨some impl⟩ Key = none := by
        cases hc : FTomlTable.child ⟨some impl⟩ Key with
        | none => rfl
        | some n => rw [hc] at h; simp at h
      rw [hnone]
      exact fun h' => UETypeToNativeType_ne_none T h'.symm
    · exact h
  simp [hne]

theorem GetOr_default_on_absent_or_mismatch_witness :
    (∃ v, docFlag.GetOr .int32 "flag" (-1 : Int) = .ok v) ∧
      docFlag.GetOr .int32 "flag" (-1 : Int) = .ok (-1 : Int) :=
  ⟨(GetOr_default_on_absent_or_mismatch .int32 docFlag "flag" (-1 : Int) rfl).1,
   (GetOr_default_on_absent_or_mismatch .int32 docFlag "flag" (-1 : Int) rfl).2
     (Or.inr (by decide))⟩

/-- C3: the defaulted `AtPath<T>(Path, Default)` has no test of the node type before
`value_or`. On the document `flag = true`, `AtPath<int32>("flag", -1)` returns 1, the boolean
converted, where the defaulted `Get<int32>("flag", -1)` returns -1. -/
theorem AtPathOr_int32_converts_boolean :
    (docFlag.child "flag").type = NodeType.boolean
    ∧ Toml.UETypeToNativeType .int32 = NodeType.integer
    ∧ docFlag.AtPathOr .int32 "flag" (-1 : Int) = .ok (1 : Int)
    ∧ docFlag.GetOr .int32 "flag" (-1 : Int) = .ok (-1 : Int) := by
  decide

/-- C4: for `T = int32` and an integer outside the `int32` range the two forms of `Get`
differ. On the document `big = 4294967296` the checked `Get<int32>("big")` returns 0, the
value cast, and the defaulted `Get<int32>("big", 7)` returns 7, the default. -/
theorem Get_and_GetOr_differ_out_of_range :
    docBig.HasKey "big" = .ok true
    ∧ (docBig.child "big").type = Toml.UETypeToNativeType .int32
    ∧ docBig.Get .int32 "big" = .ok (0 : Int)
    ∧ docBig.GetOr .int32 "big" (7 : Int) = .ok (7 : Int) := by
  decide

theorem GetHomoArray_valid_array (T : CallerKind) (impl : FTomlFileImpl) (Key : String)
    (elems : List Node) (hc : FTomlTable.child ⟨some impl⟩ Key = some (.array elems)) :
    FTomlTable.GetHomoArray T ⟨some impl⟩ Key =
      if !elems.isEmpty && elems.all (fun e => decide (e.type = Toml.UETypeToNativeType T)) then
        .ok (elems.filterMap (fun item => (NodeView.as T (some item)).map (Toml.toCaller T)))
      else .error .checkFailed := by
  simp only [FTomlTable.child] at hc
  simp only [FTomlTable.GetHomoArray, FTomlTable.HasKey, FTomlTable.deref, Table.index,
    Table.contains, ok_bind, pure_eq_ok, throw_eq_error, hc, Option.isSome_some, checkf_true,
    NodeView.is_array, NodeView.as_array, NodeView.is_homogeneous, Node.is_homogeneous]
  cases hb : (!elems.isEmpty && elems.all (fun e => decide (e.type = Toml.UETypeToNativeType T)))
  · simp [checkf_false, error_bind]
  · simp [checkf_true, ok_bind]

/-- C7, as amended: on a valid handle, when the child under the key is an empty array,
`GetHomoArray<T>(Key)` fails on a `checkf` for every `T`: the engine's `is_homogeneous` is
false on an empty array. -/
theorem GetHomoArray_fails_on_empty_array (T : CallerKind) (self : FTomlTable) (Key : String)
    (hv : self.IsValid = true) (hc : self.child Key = some (.array [])) :
    self.GetHomoArray T Key = .error .checkFailed := by
  obtain ⟨impl, rfl⟩ := valid_eq self hv
  rw [GetHomoArray_valid_array T impl Key [] hc]
  rfl

theorem GetHomoArray_fails_on_empty_array_witness :
    docEmptyArray.GetHomoArray .bool "e" = .error .checkFailed :=
  GetHomoArray_fails_on_empty_array .bool docEmptyArray "e" rfl rfl

/-- C7, counterexample: on the document `e = []`, `GetHomoArray<FString>("e")` does not return
the empty sequence; it fails on a `checkf`. -/
theorem GetHomoArray_FString_fails_on_empty_array :
    docEmptyArray.child "e" = some (.array [])
    ∧ docEmptyArray.GetHomoArray .FString "e" ≠ .ok []
    ∧ docEmptyArray.GetHomoArray .FString "e" = .error .checkFailed :=
  ⟨rfl, by decide, by decide⟩

/-- C8: on a valid handle, when the child under the key is the integer `v`, the checked
`Get<int32>(Key)` returns a value: the one of the `int32` range that is congruent to `v`
modulo `2^32`, which is `v` itself when `v` is of the `int32` range. -/
theorem Get_int32_truncates (self : FTomlTable) (Key : String) (v : Int)
    (hv : self.IsValid = true) (hc : self.child Key = some (.integer v)) :
    ∃ r : Int, self.Get .int32 Key = .ok r ∧ -(2 : Int) ^ 31 ≤ r ∧ r < (2 : Int) ^ 31 ∧
      (r - v) % (2 : Int) ^ 32 = 0 ∧ ((-(2 : Int) ^ 31 ≤ v ∧ v < (2 : Int) ^ 31) → r = v) := by
  obtain ⟨impl, rfl⟩ := valid_eq self hv
  refine ⟨castInt32 v, ?_, ?_, ?_, ?_, ?_⟩
  · rw [Get_valid, hc]
    rfl
  · unfold castInt32; omega
  · unfold castInt32; omega
  · unfold castInt32; omega
  · intro h; unfold castInt32; omega

theorem Get_int32_truncates_witness :
    ∃ r : Int, docBig.Get .int32 "big" = .ok r ∧ -(2 : Int) ^ 31 ≤ r ∧ r < (2 : Int) ^ 31 ∧
      (r - 4294967296) % (2 : Int) ^ 32 = 0 ∧
      ((-(2 : Int) ^ 31 ≤ 4294967296 ∧ (4294967296 : Int) < (2 : Int) ^ 31) → r = 4294967296) :=
  Get_int32_truncates docBig "big" 4294967296 rfl rfl

/-- C9: the defaulted `AtPath<T>` and the chained form differ on a leaf of another type. On the
document `[a.b]`, `c = true` the chained `GetTable("a").GetTable("b").Get<int32>("c", -1)`
returns -1, the default, and `AtPath<int32>("a.b.c", -1)` returns 1, the boolean converted. -/
theorem AtPathOr_differs_from_chained_GetOr :
    chainedGetOr .int32 docNested "a" "b" "c" (-1 : Int) = .ok (-1 : Int)
    ∧ docNested.AtPathOr .int32 "a.b.c" (-1 : Int) = .ok (1 : Int) := by
  decide

/-- C10: on an invalid handle (`Impl` null) the defaulted `Get` and the defaulted `AtPath` use
`Impl->` unguarded and end on the null pointer, for every key, path, `T` and default; `GetKeys`
tests `Impl` and returns the empty sequence. -/
theorem defaulted_getters_on_invalid_handle (T : CallerKind) (Key Path : String)
    (Default : T.Val) :
    FTomlTable.IsValid ⟨none⟩ = false
    ∧ FTomlTable.GetOr T ⟨none⟩ Key Default = .error .nullDeref
    ∧ FTomlTable.AtPathOr T ⟨none⟩ Path Default = .error .nullDeref
    ∧ FTomlTable.GetKeys ⟨none⟩ = [] :=
  ⟨rfl, rfl, rfl, rfl⟩

/-- C11: `LoadString` returns a valid handle exactly when the engine's parser accepts the text
handed to it, `TCHAR_TO_UTF8(*Content)`; on acceptance the document of the handle is the
parsed table, on rejection the handle is invalid. -/
theorem LoadString_valid_iff_parser_accepts (parse : String → Except ParseError Table)
    (Content : String) :
    ((FTomlTable.LoadString parse Content).1.IsValid = true ↔
      ∃ table, parse (TCHAR_TO_UTF8 Content) = .ok table)
    ∧ (∀ table, parse (TCHAR_TO_UTF8 Content) = .ok table →
      (FTomlTable.LoadString parse Content).1 = ⟨some ⟨table⟩⟩)
    ∧ (∀ e, parse (TCHAR_TO_UTF8 Content) = .error e →
      (FTomlTable.LoadString parse Content).1 = ⟨none⟩ ∧
        (FTomlTable.LoadString parse Content).1.IsValid = false) := by
  cases hp : parse (TCHAR_TO_UTF8 Content) with
  | ok table =>
    have hl : (FTomlTable.LoadString parse Content).1 = ⟨some ⟨table⟩⟩ := by
      simp only [FTomlTable.LoadString, Toml.ParseTomlTable, hp]
    refine ⟨⟨fun _ => ⟨table, rfl⟩, fun _ => by rw [hl]; rfl⟩, ?_, ?_⟩
    · intro t ht
      cases ht
      exact hl
    · intro e he
      cases he
  | error e =>
    have hl : (FTomlTable.LoadString parse Content).1 = ⟨none⟩ := by
      simp only [FTomlTable.LoadString, Toml.ParseTomlTable, hp]
    refine ⟨⟨fun hv => ?_, fun ⟨t, ht⟩ => by cases ht⟩, ?_, ?_⟩
    · rw [hl] at hv
      simp [FTomlTable.IsValid] at hv
    · intro t ht
      cases ht
    · intro e' _
      exact ⟨hl, by rw [hl]; rfl⟩

theorem LoadString_valid_iff_parser_accepts_witness :
    (FTomlTable.LoadString parseSample "flag = true").1.IsValid = true
    ∧ (FTomlTable.LoadString parseSample "flag = true").1 = docFlag
    ∧ (FTomlTable.LoadString parseSample "invalid ] toml = content").1 = ⟨none⟩
    ∧ (FTomlTable.LoadString parseSample "invalid ] toml = content").1.IsValid = false :=
  ⟨(LoadString_valid_iff_parser_accepts parseSample "flag = true").1.2
      ⟨[("flag", .boolean true)], rfl⟩,
   (LoadString_valid_iff_parser_accepts parseSample "flag = true").2.1
      [("flag", .boolean true)] rfl,
   ((LoadString_valid_iff_parser_accepts parseSample "invalid ] toml = content").2.2
      ⟨"Error while parsing key-value pair", none, 1, 1, 1, 1⟩ rfl).1,
   ((LoadString_valid_iff_parser_accepts parseSample "invalid ] toml = content").2.2
      ⟨"Error while parsing key-value pair", none, 1, 1, 1, 1⟩ rfl).2⟩

/-- C12, as amended: the copy of a handle is valid; its document is the document of the
original when that is valid and the empty table when it is invalid, so that the copy of an
invalid handle is valid and empty while the invalid original is not empty. The assignment of
another object leaves the target as the copy of that object would be, hence valid; the
assignment of an object to itself leaves it as it is. -/
theorem copy_and_assignment_of_another_are_valid (h target : FTomlTable) :
    h.copy.IsValid = true
    ∧ (∀ impl, h.Impl = some impl → h.copy.Impl = some impl)
    ∧ (h.IsValid = false →
      h.copy.Impl = some ⟨[]⟩ ∧ h.copy.IsEmpty = true ∧ h.IsEmpty = false)
    ∧ (target.operatorAssign (.other h)).IsValid = true
    ∧ target.operatorAssign (.other h) = h.copy
    ∧ target.operatorAssign .this = target := by
  cases h with
  | mk Impl =>
    cases Impl with
    | none =>
      refine ⟨rfl, ?_, fun _ => ⟨rfl, rfl, rfl⟩, rfl, rfl, rfl⟩
      intro impl himpl
      cases himpl
    | some impl =>
      refine ⟨rfl, ?_, ?_, rfl, rfl, rfl⟩
      · intro impl' himpl
        cases himpl
        rfl
      · intro hv
        simp [FTomlTable.IsValid] at hv

theorem copy_and_assignment_of_another_are_valid_witness :
    (FTomlTable.copy ⟨none⟩).Impl = some ⟨[]⟩
    ∧ (FTomlTable.copy ⟨none⟩).IsEmpty = true
    ∧ FTomlTable.IsEmpty ⟨none⟩ = false
    ∧ docFlag.copy.Impl = some ⟨[("flag", .boolean true)]⟩ :=
  ⟨((copy_and_assignment_of_another_are_valid ⟨none⟩ docFlag).2.2.1 rfl).1,
   ((copy_and_assignment_of_another_are_valid ⟨none⟩ docFlag).2.2.1 rfl).2.1,
   ((copy_and_assignment_of_another_are_valid ⟨none⟩ docFlag).2.2.1 rfl).2.2,
   (copy_and_assignment_of_another_are_valid docFlag docFlag).2.1 _ rfl⟩

/-- C12, counterexample: an invalid handle assigned to itself is still invalid; `operator=`
does nothing when `this == &Other`. -/
theorem self_assignment_keeps_invalid_handle_invalid :
    FTomlTable.IsValid ⟨none⟩ = false
    ∧ (FTomlTable.operatorAssign ⟨none⟩ .this).IsValid = false
    ∧ (FTomlTable.operatorAssign ⟨none⟩ .this).IsEmpty = false := by
  decide

end UnrealToml
